import Mathlib

/-!
Verification of the wiz_Light_Controller scanner and protocol client.

JavaScript strings are modelled as `List Char`; JavaScript numbers arising in
the embedded code are integers or NaN, modelled as `Option Int` with `none`
standing for NaN.  The relevant coercion semantics (`ToInt32`, `ToUint32`,
truthiness, `parseInt`) are given explicit models below.
-/

/-- A JavaScript string, modelled as its list of characters. -/
abbrev JSStr := List Char

/-- Coerce a Lean string literal into the `List Char` model. -/
def js (s : String) : JSStr := s.data

/-- JS string truthiness: the empty string is falsy. -/
def jsTruthyStr (s : JSStr) : Bool := !s.isEmpty

/-- JS truthiness of a possibly-undefined string (`undefined` and `""` falsy). -/
def jsTruthyOptStr (s : Option JSStr) : Bool :=
  match s with
  | none => false
  | some s => jsTruthyStr s

/-- ASCII lower-casing, the model of `String.prototype.toLowerCase` on the
ASCII data handled by this program. -/
def jsToLower (s : JSStr) : JSStr := s.map Char.toLower

/-- Model of `String.prototype.split` with a single-character separator.
Like in JS, the result is always non-empty and `"".split(sep) = [""]`. -/
def jsSplit (sep : Char) : JSStr → List JSStr
  | [] => [[]]
  | c :: rest =>
    let r := jsSplit sep rest
    if c = sep then [] :: r else (c :: r.headD []) :: r.tail

/-- Model of `Array.prototype.join` with a single-character separator. -/
def jsIntercalate (sep : Char) : List JSStr → JSStr
  | [] => []
  | [x] => x
  | x :: y :: xs => x ++ sep :: jsIntercalate sep (y :: xs)

/-- The ASCII digit character for `d` (meaningful for `d < 10`). -/
def digitChar (d : Nat) : Char := Char.ofNat (48 + d)

/-- Numeric value of an ASCII digit character. -/
def digitVal (c : Char) : Nat := c.toNat - 48

/-- Value of a digit string, most significant digit first. -/
def digitsVal (l : List Char) : Nat := l.foldl (fun a c => a * 10 + digitVal c) 0

/-- Fuel-driven core of decimal printing (fuel `> n` suffices). -/
def natToCharsCore : Nat → Nat → List Char → List Char
  | 0, _, acc => acc
  | fuel + 1, n, acc =>
    if n < 10 then digitChar n :: acc
    else natToCharsCore fuel (n / 10) (digitChar (n % 10) :: acc)

/-- Decimal representation of a natural number, the model of JS
`Number.prototype.toString` on non-negative integers. -/
def natToChars (n : Nat) : List Char := natToCharsCore (n + 1) n []

/-- Model of JS `Number.prototype.toString` on integers. -/
def jsIntToChars (i : Int) : List Char :=
  if i < 0 then '-' :: natToChars i.natAbs else natToChars i.toNat

/-- The whitespace characters skipped by `parseInt`. -/
def jsIsSpace (c : Char) : Bool := c == ' ' || c == '\t' || c == '\n' || c == '\r'

/-- The leading run of decimal digits, as a number; `none` when there is none. -/
def jsDigitsOpt (l : List Char) : Option Nat :=
  let ds := l.takeWhile Char.isDigit
  if ds.isEmpty then none else some (digitsVal ds)

/-- Model of JS `parseInt(s, 10)`: skip leading whitespace, read an optional
sign and then the longest run of decimal digits; NaN (`none`) if there are no
digits. -/
def jsParseInt (s : JSStr) : Option Int :=
  let t := s.dropWhile jsIsSpace
  if t.head? = some '-' then (jsDigitsOpt t.tail).map (fun v => -(v : Int))
  else if t.head? = some '+' then (jsDigitsOpt t.tail).map (fun v => (v : Int))
  else (jsDigitsOpt t).map (fun v => (v : Int))

/-- Model of `parseInt` applied to a possibly-undefined string;
`parseInt(undefined, 10)` is NaN. -/
def jsParseIntU (s : Option JSStr) : Option Int :=
  match s with
  | none => none
  | some s => jsParseInt s

/-- JS `ToUint32` on an integer. -/
def toUint32 (i : Int) : Nat := (i % 4294967296).toNat

/-- JS `ToInt32` on an integer. -/
def toInt32 (i : Int) : Int :=
  if i % 4294967296 < 2147483648 then i % 4294967296 else i % 4294967296 - 4294967296

/-- JS `ToUint32` on a possibly-NaN number (`NaN >>> 0 = 0`). -/
def jsToUint32 (x : Option Int) : Nat :=
  match x with
  | none => 0
  | some i => toUint32 i

/-- JS `ToInt32` on a possibly-NaN number. -/
def jsToInt32 (x : Option Int) : Int :=
  match x with
  | none => 0
  | some i => toInt32 i

/-- JS `x << 8` (operands pass through `ToInt32`). -/
def jsShl8 (x : Option Int) : Int := toInt32 (jsToInt32 x * 256)

/-- JS addition with NaN propagation. -/
def jsAdd (a b : Option Int) : Option Int :=
  match a, b with
  | some x, some y => some (x + y)
  | _, _ => none

/-- JS subtraction with NaN propagation. -/
def jsSub (a b : Option Int) : Option Int :=
  match a, b with
  | some x, some y => some (x - y)
  | _, _ => none

/-- JS `<` (false when either side is NaN). -/
def jsLt (a b : Option Int) : Bool :=
  match a, b with
  | some x, some y => decide (x < y)
  | _, _ => false

/-- JS `>` (false when either side is NaN). -/
def jsGt (a b : Option Int) : Bool :=
  match a, b with
  | some x, some y => decide (y < x)
  | _, _ => false

/-- Model of `Math.pow(2, e)`; at its call site the exponent is in `[0, 32]` or NaN. -/
def jsPow2 (x : Option Int) : Option Int := x.map (fun e => (2 : Int) ^ e.toNat)

/-- Model of `Math.max(0, x)` (NaN propagates). -/
def jsMax0 (x : Option Int) : Option Int := x.map (fun v => max 0 v)

/-! ## src/server/utils/network.ts -/

/-- Model of `ipToNumber` from network.ts:
`ip.split('.').reduce((acc, octet) => (acc << 8) + parseInt(octet, 10), 0) >>> 0`. -/
def ipToNumber (s : JSStr) : Nat :=
  jsToUint32 ((jsSplit '.' s).foldl
    (fun acc oct => jsAdd (some (jsShl8 acc)) (jsParseInt oct)) (some 0))

/-- Model of `numberToIp` from network.ts: the four expressions `(num >>> k) & 255`
each apply `ToUint32` to `num` and extract one octet, joined with `'.'`. -/
def numberToIp (num : Option Int) : JSStr :=
  let n := jsToUint32 num
  jsIntercalate '.'
    [natToChars (n / 16777216 % 256), natToChars (n / 65536 % 256),
     natToChars (n / 256 % 256), natToChars (n % 256)]

/-- Model of `isValidIP` from network.ts.  The `none` branch mirrors `parseInt`
returning NaN, for which `num >= 0` is false. -/
def isValidIP (s : JSStr) : Bool :=
  let parts := jsSplit '.' s
  parts.length == 4 && parts.all (fun part =>
    match jsParseInt part with
    | none => false
    | some num => decide (0 ≤ num) && decide (num ≤ 255) && (part == jsIntToChars num))

/-- The record returned by `parseCIDR` (the source field `prefix` is named
`prefixLen` here). -/
structure CIDRInfo where
  network : JSStr
  prefixLen : Option Int
  firstHost : JSStr
  lastHost : JSStr
  totalHosts : Option Int
deriving DecidableEq

/-- Model of `parseCIDR` from network.ts.  Note that the guard `prefix < 0 || prefix > 32`
is false when the parsed prefix is NaN, exactly as in JS. -/
def parseCIDR (cidr : JSStr) : Except JSStr CIDRInfo :=
  let parts := jsSplit '/' cidr
  let network := parts.headD []
  let p := jsParseIntU (parts.get? 1)
  if jsLt p (some 0) || jsGt p (some 32) then .error (js "Invalid CIDR prefix")
  else
    let totalHosts := jsSub (jsPow2 (jsSub (some 32) p)) (some 2)
    let networkNum := ipToNumber network
    let lastHostNum := jsAdd (some (networkNum : Int)) totalHosts
    .ok { network := network, prefixLen := p,
          firstHost := numberToIp (some ((networkNum : Int) + 1)),
          lastHost := numberToIp lastHostNum,
          totalHosts := jsMax0 totalHosts }

/-- Model of `enumerateHosts` from network.ts. -/
def enumerateHosts (cidr : JSStr) : Except JSStr (List JSStr) :=
  match parseCIDR cidr with
  | .error e => .error e
  | .ok info =>
    if jsGt info.totalHosts (some 65536) then .error (js "CIDR range too large (max /16)")
    else
      let firstNum := ipToNumber info.firstHost
      let lastNum := ipToNumber info.lastHost
      .ok ((List.range (lastNum + 1 - firstNum)).map
            (fun i => numberToIp (some ((firstNum + i : Nat) : Int))))

deriving instance DecidableEq for Except

/-! ## src/shared/types.ts -/

/-- Model of `ConfidenceLevel` from types.ts. -/
inductive ConfidenceLevel where
  | low
  | medium
  | high
deriving DecidableEq

/-- An `{r, g, b}` colour triple. -/
structure RGB where
  r : Int
  g : Int
  b : Int
deriving DecidableEq

/-- Model of `DeviceState` from types.ts (`power` is a required field). -/
structure DeviceState where
  power : Bool
  brightness : Option Int := none
  colorTemp : Option Int := none
  rgb : Option RGB := none
  speed : Option Int := none
  sceneId : Option Int := none
deriving DecidableEq

/-- Model of `WizDevice` from types.ts. -/
structure WizDevice where
  id : JSStr
  ip : JSStr
  mac : Option JSStr := none
  name : Option JSStr := none
  model : Option JSStr := none
  confidence : ConfidenceLevel
  lastSeen : Int
  state : Option DeviceState := none
  rssi : Option Int := none
  groups : Option (List JSStr) := none
deriving DecidableEq

/-! ## src/server/wiz-client.ts -/

/-- The `result` payload of a `WizResponse`. -/
structure WizResult where
  mac : Option JSStr := none
  rssi : Option Int := none
  state : Option Bool := none
  sceneId : Option Int := none
  temp : Option Int := none
  dimming : Option Int := none
  speed : Option Int := none
  r : Option Int := none
  g : Option Int := none
  b : Option Int := none
  c : Option Int := none
  w : Option Int := none
deriving DecidableEq

/-- The `error` payload of a `WizResponse`. -/
structure WizError where
  code : Int
  message : JSStr
deriving DecidableEq

/-- Model of `WizResponse` from wiz-client.ts. -/
structure WizResponse where
  method : Option JSStr := none
  env : Option JSStr := none
  result : Option WizResult := none
  error : Option WizError := none
deriving DecidableEq

/-- The `params` object of a `setPilot` request; an absent field is a key that
was never added to the object. -/
structure WizParams where
  state : Option Bool := none
  dimming : Option Int := none
  temp : Option Int := none
  r : Option Int := none
  g : Option Int := none
  b : Option Int := none
  speed : Option Int := none
  sceneId : Option Int := none
deriving DecidableEq

/-- A partial `DeviceState` as accepted by `setState` (every field optional). -/
structure StatePatch where
  power : Option Bool := none
  brightness : Option Int := none
  colorTemp : Option Int := none
  rgb : Option RGB := none
  speed : Option Int := none
  sceneId : Option Int := none
deriving DecidableEq

/-- Model of `sendCommand` either rejects (timeout, transport or decode error,
collapsed into a message string) or resolves with a decoded response.  The
transport is modelled as an environment-supplied function from the request
parameters to such an outcome. -/
abbrev SendOutcome := Except JSStr WizResponse

/-- The success test shared by every setter:
`response.result !== undefined && !response.error`, with the `catch` branch
returning `false`. -/
def replySuccess (outcome : SendOutcome) : Bool :=
  match outcome with
  | .ok response => response.result.isSome && response.error.isNone
  | .error _ => false

/-- The params built by `setPower`. -/
def setPowerParams (power : Bool) : WizParams :=
  { state := some power }

/-- Model of `setPower` from wiz-client.ts. -/
def setPower (send : WizParams → SendOutcome) (power : Bool) : Bool :=
  replySuccess (send (setPowerParams power))

/-- The params built by `setBrightness`:
`dimming = Math.max(10, Math.min(100, brightness))`. -/
def setBrightnessParams (brightness : Int) : WizParams :=
  { dimming := some (max 10 (min 100 brightness)), state := some true }

/-- Model of `setBrightness` from wiz-client.ts. -/
def setBrightness (send : WizParams → SendOutcome) (brightness : Int) : Bool :=
  replySuccess (send (setBrightnessParams brightness))

/-- The params built by `setColorTemp`:
`temp = Math.max(2200, Math.min(6500, temp))`. -/
def setColorTempParams (temp : Int) : WizParams :=
  { temp := some (max 2200 (min 6500 temp)), state := some true }

/-- Model of `setColorTemp` from wiz-client.ts. -/
def setColorTemp (send : WizParams → SendOutcome) (temp : Int) : Bool :=
  replySuccess (send (setColorTempParams temp))

/-- The params built by `setRGB`: each channel clamped to `[0, 255]`. -/
def setRGBParams (r g b : Int) : WizParams :=
  { r := some (max 0 (min 255 r)), g := some (max 0 (min 255 g)),
    b := some (max 0 (min 255 b)), state := some true }

/-- Model of `setRGB` from wiz-client.ts. -/
def setRGB (send : WizParams → SendOutcome) (r g b : Int) : Bool :=
  replySuccess (send (setRGBParams r g b))

/-- The params built by `setState`, field by field in source order.  Note that
`speed` is forwarded verbatim, without clamping. -/
def setStateParams (st : StatePatch) : WizParams :=
  let params : WizParams := {}
  let params := match st.power with
    | some p => { params with state := some p }
    | none => params
  let params := match st.brightness with
    | some b => { params with dimming := some (max 10 (min 100 b)) }
    | none => params
  let params := match st.colorTemp with
    | some t => { params with temp := some (max 2200 (min 6500 t)) }
    | none => params
  let params := match st.rgb with
    | some col => { params with r := some (max 0 (min 255 col.r)),
                                g := some (max 0 (min 255 col.g)),
                                b := some (max 0 (min 255 col.b)) }
    | none => params
  let params := match st.speed with
    | some s => { params with speed := some s }
    | none => params
  let params := match st.sceneId with
    | some s => { params with sceneId := some s }
    | none => params
  params

/-- Model of `setState` from wiz-client.ts. -/
def setState (send : WizParams → SendOutcome) (st : StatePatch) : Bool :=
  replySuccess (send (setStateParams st))

/-- The params built by `setScene`: `speed = Math.max(0, Math.min(200, speed))`. -/
def setSceneParams (sceneId speed : Int) : WizParams :=
  { sceneId := some sceneId, speed := some (max 0 (min 200 speed)), state := some true }

/-- Model of `setScene` from wiz-client.ts. -/
def setScene (send : WizParams → SendOutcome) (sceneId : Int) (speed : Int := 100) : Bool :=
  replySuccess (send (setSceneParams sceneId speed))

/-! ## src/server/scanner.ts -/

/-- Model of `ARPEntry` from scanner.ts. -/
structure ARPEntry where
  ip : JSStr
  mac : JSStr
  type : JSStr
deriving DecidableEq

/-- The MAC normalization applied to each ARP-table match (scanner.ts lines
781-792): lower-case, dashes to colons on Windows, then each colon-separated
group left-padded with `'0'` to length 2 (`part.padStart(2, '0')`). -/
def arpNormalizeMac (isWindows : Bool) (raw : JSStr) : JSStr :=
  let mac := jsToLower raw
  let mac := if isWindows then mac.map (fun c => if c = '-' then ':' else c) else mac
  jsIntercalate ':' ((jsSplit ':' mac).map
    (fun part => List.replicate (2 - part.length) '0' ++ part))

/-- Model of `checkMACVendor` from scanner.ts; the `oui` package lookup is an
environment-supplied function.  Returns the `isWiz` flag. -/
def checkMACVendor (ouiLookup : JSStr → Option JSStr) (mac : JSStr) : Bool :=
  match ouiLookup mac with
  | none => false
  | some vendor =>
    let vendorLower := jsToLower vendor
    [js "espressif", js "wiz", js "wizconnected", js "signify"].any
      (fun v => (vendorLower.tails.any (fun t => v.isPrefixOf t)))

/-- Model of `probeHost` from scanner.ts.  The two client calls `wizClient.probe` and
`wizClient.getSystemConfig` are environment-supplied outcomes (`none` models a
`null` return); `getModelConfig` only logs and is omitted.  `Date.now()` is the
parameter `now`. -/
def probeHost (ouiLookup : JSStr → Option JSStr) (ip : JSStr) (arpEntry : Option ARPEntry)
    (probeResp sysConfig : Option WizResponse) (now : Int) : Option WizDevice :=
  match probeResp with
  | none => none
  | some response =>
    match response.result with
    | none => none
    | some result =>
      -- let mac = arpEntry?.mac
      let mac : Option JSStr := arpEntry.map (fun e => e.mac)
      -- if (!mac && response.result.mac) mac = response.result.mac.toLowerCase()
      let mac := if !jsTruthyOptStr mac && jsTruthyOptStr result.mac
        then result.mac.map jsToLower else mac
      -- if (!mac && sysConfig?.result?.mac) mac = sysConfig.result.mac.toLowerCase()
      let sysMac := (sysConfig.bind (fun r => r.result)).bind (fun r => r.mac)
      let mac := if !jsTruthyOptStr mac && jsTruthyOptStr sysMac
        then sysMac.map jsToLower else mac
      let isWiz := if jsTruthyOptStr mac
        then checkMACVendor ouiLookup (mac.getD []) else false
      let confidence : ConfidenceLevel :=
        if !isWiz && jsTruthyOptStr mac then .medium else .high
      some
        { id := if jsTruthyOptStr mac then mac.getD [] else js "ip-" ++ ip,
          ip := ip,
          mac := mac,
          confidence := confidence,
          lastSeen := now,
          rssi := result.rssi,
          state := some
            { power := result.state.getD false,
              brightness := result.dimming,
              colorTemp := result.temp,
              sceneId := result.sceneId } }

/-- Model of `countDeviceFeatures` from scanner.ts.  `if (device.mac)` is a JS
truthiness test (absent or empty string does not count); `rssi` and the state
fields are `!== undefined` tests, and `power` is a required field of
`DeviceState`, so its test always succeeds when `state` is present. -/
def countDeviceFeatures (device : WizDevice) : Nat :=
  let count := 0
  let count := if jsTruthyOptStr device.mac then count + 1 else count
  let count := if device.rssi.isSome then count + 1 else count
  match device.state with
  | none => count
  | some s =>
    let count := if s.brightness.isSome then count + 1 else count
    let count := if s.colorTemp.isSome then count + 1 else count
    let count := if s.sceneId.isSome then count + 1 else count
    count + 1

/-- The numeric confidence ordering `{ low: 0, medium: 1, high: 2 }`. -/
def confidenceOrder : ConfidenceLevel → Nat
  | .low => 0
  | .medium => 1
  | .high => 2

/-- Model of `shouldUpdateDevice` from scanner.ts. -/
def shouldUpdateDevice (existing newDevice : WizDevice) : Bool :=
  let existingFeatures := countDeviceFeatures existing
  let newFeatures := countDeviceFeatures newDevice
  if newFeatures > existingFeatures then true
  else if confidenceOrder newDevice.confidence > confidenceOrder existing.confidence then true
  else false

/-- Model of `mergeDevices` from scanner.ts; `Date.now()` is the parameter `now`. -/
def mergeDevices (now : Int) (existing newDevice : WizDevice) : WizDevice :=
  { id := existing.id,
    ip := if jsTruthyStr newDevice.ip then newDevice.ip else existing.ip,
    mac := if jsTruthyOptStr newDevice.mac then newDevice.mac else existing.mac,
    confidence := if newDevice.confidence = .high then .high else existing.confidence,
    lastSeen := now,
    rssi := if newDevice.rssi.isSome then newDevice.rssi else existing.rssi,
    state := some
      { power := ((newDevice.state.map (fun s => s.power)).orElse
          (fun _ => existing.state.map (fun s => s.power))).getD false,
        brightness := (newDevice.state.bind (fun s => s.brightness)).orElse
          (fun _ => existing.state.bind (fun s => s.brightness)),
        colorTemp := (newDevice.state.bind (fun s => s.colorTemp)).orElse
          (fun _ => existing.state.bind (fun s => s.colorTemp)),
        sceneId := (newDevice.state.bind (fun s => s.sceneId)).orElse
          (fun _ => existing.state.bind (fun s => s.sceneId)) } }

/-- Lookup in the insertion-ordered device map (`Map.get`). -/
def mapGet (m : List (JSStr × WizDevice)) (k : JSStr) : Option WizDevice :=
  match m with
  | [] => none
  | (k', v) :: rest => if k' = k then some v else mapGet rest k

/-- Update in the insertion-ordered device map (`Map.set`). -/
def mapSet (m : List (JSStr × WizDevice)) (k : JSStr) (v : WizDevice) :
    List (JSStr × WizDevice) :=
  match m with
  | [] => [(k, v)]
  | (k', v') :: rest => if k' = k then (k, v) :: rest else (k', v') :: mapSet rest k v

/-- The registry update performed for one probed device inside `scan`
(scanner.ts lines 1032-1083): returns the new map, the device pushed onto
`results` (if any) and the increment of `devicesFound`.  Database writes are
fire-and-forget and have no effect on this state. -/
def integrateDevice (now : Int) (devices : List (JSStr × WizDevice)) (device : WizDevice) :
    List (JSStr × WizDevice) × Option WizDevice × Nat :=
  match mapGet devices device.id with
  | none => (mapSet devices device.id device, some device, 1)
  | some existingDevice =>
    if shouldUpdateDevice existingDevice device then
      let mergedDevice := mergeDevices now existingDevice device
      (mapSet devices device.id mergedDevice, some mergedDevice, 0)
    else
      (mapSet devices device.id { existingDevice with lastSeen := now }, none, 0)

/-- Model of `ScanProgress` from types.ts.  JS floating-point percentages are modelled
as exact rationals. -/
structure ScanProgress where
  scanning : Bool
  progress : ℚ
  currentHost : Option JSStr := none
  devicesFound : Nat
  hostsScanned : Nat
  totalHosts : Nat
deriving DecidableEq

/-- Model of `ScanOptions` from scanner.ts. -/
structure ScanOpts where
  subnet : Option JSStr := none
  concurrency : Option Int := none
  timeout : Option Int := none

/-- The environment of a scan: the transport oracles behind `wizClient`, the
`oui` database, the ARP snapshot produced by `getARPTable`, the result of
`autoDetectSubnet()`, and the clock. -/
structure ScanEnv where
  probeResp : JSStr → Option WizResponse
  sysResp : JSStr → Option WizResponse
  ouiLookup : JSStr → Option JSStr
  arpTable : List (JSStr × ARPEntry)
  autoSubnet : JSStr
  now : Int

/-- The scanner's mutable fields relevant to `scan`. -/
structure ScannerState where
  scanInProgress : Bool
  devices : List (JSStr × WizDevice)
  hasCallback : Bool

/-- The observable outcome of one `scan` call. -/
structure ScanOutcome where
  result : Except JSStr (List WizDevice)
  events : List ScanProgress
  finalDevices : List (JSStr × WizDevice)
  scanInProgressAfter : Bool
deriving DecidableEq

/-- JS `a || b` where `a` is a possibly-undefined string. -/
def jsOrStrOpt (a : Option JSStr) (b : JSStr) : JSStr :=
  match a with
  | some s => if s.isEmpty then b else s
  | none => b

/-- Lookup in the ARP snapshot (`arpTable.get(ip)`). -/
def arpGet (m : List (JSStr × ARPEntry)) (k : JSStr) : Option ARPEntry :=
  match m with
  | [] => none
  | (k', v) :: rest => if k' = k then some v else arpGet rest k

/-- One progress snapshot as built by `emitProgress` in `scan`. -/
def emitProgressEvent (hosts : List JSStr) (hostsScanned devicesFound : Nat) : ScanProgress :=
  { scanning := true,
    progress := ((hostsScanned : ℚ) / (hosts.length : ℚ)) * 100,
    currentHost := hosts.get? hostsScanned,
    devicesFound := devicesFound,
    hostsScanned := hostsScanned,
    totalHosts := hosts.length }

/-- State threaded through the probing loop of `scan`. -/
structure ScanLoopState where
  devices : List (JSStr × WizDevice)
  results : List WizDevice
  hostsScanned : Nat
  devicesFound : Nat
  events : List ScanProgress

/-- One host's step of the probing loop of `scan`: probe, feed the outcome
into the registry, and emit a progress snapshot every 10 completed hosts.
The concurrent batches of the source are modelled sequentially in enumeration
order (one fixed interleaving); the inter-batch delay has no observable
effect. -/
def scanStep (env : ScanEnv) (hosts : List JSStr) (hasCallback : Bool)
    (st : ScanLoopState) (ip : JSStr) : ScanLoopState :=
  let device := probeHost env.ouiLookup ip (arpGet env.arpTable ip)
    (env.probeResp ip) (env.sysResp ip) env.now
  let st := { st with hostsScanned := st.hostsScanned + 1 }
  let st := match device with
    | none => st
    | some d =>
      let (devices', pushed, foundInc) := integrateDevice env.now st.devices d
      { st with devices := devices',
                results := st.results ++ pushed.toList,
                devicesFound := st.devicesFound + foundInc }
  if st.hostsScanned % 10 == 0 && hasCallback then
    { st with events := st.events ++ [emitProgressEvent hosts st.hostsScanned st.devicesFound] }
  else st

/-- Model of `scan` from scanner.ts.  The `ScanInProgress` rejection happens before the
`try`; every path through the `try` runs the `finally` block, which emits one
completion snapshot when a progress callback is registered — including the
setup-failure paths (invalid CIDR, oversized range).  `concurrency` and
`timeout` only influence scheduling, which the sequential model abstracts
away. -/
def scan (env : ScanEnv) (st : ScannerState) (options : ScanOpts) : ScanOutcome :=
  if st.scanInProgress then
    { result := .error (js "Scan already in progress"),
      events := [],
      finalDevices := st.devices,
      scanInProgressAfter := st.scanInProgress }
  else
    let subnet := jsOrStrOpt options.subnet env.autoSubnet
    let finallyEvents (devs : List (JSStr × WizDevice)) : List ScanProgress :=
      if st.hasCallback then
        [{ scanning := false, progress := 100, currentHost := none,
           devicesFound := devs.length, hostsScanned := 0, totalHosts := 0 }]
      else []
    match parseCIDR subnet with
    | .error e =>
      { result := .error e, events := finallyEvents st.devices,
        finalDevices := st.devices, scanInProgressAfter := false }
    | .ok _ =>
      match enumerateHosts subnet with
      | .error e =>
        { result := .error e, events := finallyEvents st.devices,
          finalDevices := st.devices, scanInProgressAfter := false }
      | .ok hosts =>
        let final := hosts.foldl (scanStep env hosts st.hasCallback)
          { devices := st.devices, results := [], hostsScanned := 0,
            devicesFound := 0, events := [] }
        let events := final.events ++
          (if st.hasCallback then
            [emitProgressEvent hosts final.hostsScanned final.devicesFound]
          else []) ++ finallyEvents final.devices
        { result := .ok final.results, events := events,
          finalDevices := final.devices, scanInProgressAfter := false }

/-! ## Basic lemmas about the string and number models -/

theorem jsSplit_ne_nil (sep : Char) (l : JSStr) : jsSplit sep l ≠ [] := by
  cases l with
  | nil => simp [jsSplit]
  | cons c rest =>
    simp only [jsSplit]
    by_cases hc : c = sep <;> simp [hc]

theorem jsSplit_no_sep {sep : Char} {l : JSStr} (h : sep ∉ l) : jsSplit sep l = [l] := by
  induction l with
  | nil => simp [jsSplit]
  | cons c rest ih =>
    simp only [List.mem_cons, not_or] at h
    simp only [jsSplit, ih h.2]
    rw [if_neg (fun hc => h.1 hc.symm)]
    simp

theorem jsSplit_sep_cons {sep : Char} {l1 : JSStr} (l2 : JSStr) (h : sep ∉ l1) :
    jsSplit sep (l1 ++ sep :: l2) = l1 :: jsSplit sep l2 := by
  induction l1 with
  | nil =>
    simp [jsSplit]
  | cons c rest ih =>
    simp only [List.mem_cons, not_or] at h
    have ih' := ih h.2
    simp only [List.cons_append, jsSplit, List.append_eq]
    rw [ih', if_neg (fun hc => h.1 hc.symm)]
    simp

theorem jsIntercalate_jsSplit (sep : Char) (l : JSStr) :
    jsIntercalate sep (jsSplit sep l) = l := by
  induction l with
  | nil => simp [jsSplit, jsIntercalate]
  | cons c rest ih =>
    simp only [jsSplit]
    obtain ⟨h, t, hs⟩ : ∃ h t, jsSplit sep rest = h :: t := by
      cases hs : jsSplit sep rest with
      | nil => exact absurd hs (jsSplit_ne_nil sep rest)
      | cons h t => exact ⟨h, t, rfl⟩
    rw [hs] at ih
    rw [hs]
    by_cases hc : c = sep
    · subst hc
      simp only [if_pos rfl, jsIntercalate]
      rw [ih]
      simp
    · rw [if_neg hc]
      cases t with
      | nil =>
        simp only [List.headD, List.tail, jsIntercalate] at ih ⊢
        rw [ih]
      | cons t0 ts =>
        simp only [List.headD, List.tail, jsIntercalate] at ih ⊢
        rw [List.cons_append, ih]

theorem natToCharsCore_append (fuel : Nat) : ∀ (n : Nat) (acc : List Char),
    natToCharsCore fuel n acc = natToCharsCore fuel n [] ++ acc := by
  induction fuel with
  | zero => intro n acc; simp [natToCharsCore]
  | succ fuel ih =>
    intro n acc
    simp only [natToCharsCore]
    by_cases h : n < 10
    · simp [h]
    · simp only [if_neg h]
      rw [ih (n / 10) (digitChar (n % 10) :: acc), ih (n / 10) [digitChar (n % 10)]]
      simp

theorem natToCharsCore_fuel : ∀ (n fuel fuel' : Nat) (acc : List Char),
    n < fuel → n < fuel' → natToCharsCore fuel n acc = natToCharsCore fuel' n acc := by
  intro n
  induction n using Nat.strong_induction_on with
  | _ n ih =>
    intro fuel fuel' acc hf hf'
    match fuel, fuel' with
    | f + 1, f' + 1 =>
      simp only [natToCharsCore]
      by_cases h : n < 10
      · simp [h]
      · simp only [if_neg h]
        have hlt : n / 10 < n := Nat.div_lt_self (by omega) (by omega)
        exact ih (n / 10) hlt f f' _ (by omega) (by omega)

theorem natToChars_lt10 {n : Nat} (h : n < 10) : natToChars n = [digitChar n] := by
  simp [natToChars, natToCharsCore, h]

theorem natToChars_ge10 {n : Nat} (h : ¬ n < 10) :
    natToChars n = natToChars (n / 10) ++ [digitChar (n % 10)] := by
  have hlt : n / 10 < n := Nat.div_lt_self (by omega) (by omega)
  calc natToChars n = natToCharsCore (n + 1) n [] := rfl
    _ = natToCharsCore n (n / 10) [digitChar (n % 10)] := by
        simp [natToCharsCore, h]
    _ = natToCharsCore (n / 10 + 1) (n / 10) [digitChar (n % 10)] :=
        natToCharsCore_fuel (n / 10) n (n / 10 + 1) _ (by omega) (by omega)
    _ = natToCharsCore (n / 10 + 1) (n / 10) [] ++ [digitChar (n % 10)] :=
        natToCharsCore_append _ _ _
    _ = natToChars (n / 10) ++ [digitChar (n % 10)] := rfl

theorem digitChar_isDigit {d : Nat} (h : d < 10) : (digitChar d).isDigit = true := by
  interval_cases d <;> decide

theorem digitVal_digitChar {d : Nat} (h : d < 10) : digitVal (digitChar d) = d := by
  interval_cases d <;> decide

theorem natToChars_ne_nil (n : Nat) : natToChars n ≠ [] := by
  by_cases h : n < 10
  · rw [natToChars_lt10 h]; simp
  · rw [natToChars_ge10 h]; simp

theorem natToChars_all_digit (n : Nat) : ∀ c ∈ natToChars n, c.isDigit = true := by
  induction n using Nat.strong_induction_on with
  | _ n ih =>
    by_cases h : n < 10
    · rw [natToChars_lt10 h]
      intro c hc
      simp at hc
      subst hc
      exact digitChar_isDigit h
    · rw [natToChars_ge10 h]
      intro c hc
      rw [List.mem_append] at hc
      rcases hc with hc | hc
      · exact ih (n / 10) (Nat.div_lt_self (by omega) (by omega)) c hc
      · simp at hc
        subst hc
        exact digitChar_isDigit (Nat.mod_lt n (by omega))

theorem digitsVal_append_single (l : List Char) (c : Char) :
    digitsVal (l ++ [c]) = digitsVal l * 10 + digitVal c := by
  simp [digitsVal, List.foldl_append]

theorem digitsVal_natToChars (n : Nat) : digitsVal (natToChars n) = n := by
  induction n using Nat.strong_induction_on with
  | _ n ih =>
    by_cases h : n < 10
    · rw [natToChars_lt10 h]
      simp [digitsVal, digitVal_digitChar h]
    · rw [natToChars_ge10 h, digitsVal_append_single,
        ih (n / 10) (Nat.div_lt_self (by omega) (by omega)),
        digitVal_digitChar (Nat.mod_lt n (by omega))]
      omega

theorem not_mem_natToChars {c : Char} (h : c.isDigit = false) (n : Nat) :
    c ∉ natToChars n := by
  intro hmem
  have := natToChars_all_digit n c hmem
  rw [h] at this
  exact absurd this (by simp)

theorem digit_not_space {c : Char} (h : c.isDigit = true) : jsIsSpace c = false := by
  simp only [jsIsSpace, Bool.or_eq_false_iff, beq_eq_false_iff_ne, ne_eq]
  refine ⟨⟨⟨?_, ?_⟩, ?_⟩, ?_⟩ <;> rintro rfl <;> exact absurd h (by decide)

theorem digit_ne_minus {c : Char} (h : c.isDigit = true) : c ≠ '-' := by
  rintro rfl; exact absurd h (by decide)

theorem digit_ne_plus {c : Char} (h : c.isDigit = true) : c ≠ '+' := by
  rintro rfl; exact absurd h (by decide)

theorem takeWhile_of_all {p : Char → Bool} {l : List Char} (h : ∀ c ∈ l, p c = true) :
    l.takeWhile p = l := by
  induction l with
  | nil => rfl
  | cons c rest ih =>
    rw [List.takeWhile_cons, if_pos (h c (by simp))]
    rw [ih (fun x hx => h x (by simp [hx]))]

theorem jsParseInt_digits {l : List Char} (hne : l ≠ [])
    (hall : ∀ c ∈ l, c.isDigit = true) :
    jsParseInt l = some ((digitsVal l : Nat) : Int) := by
  obtain ⟨c, cs, rfl⟩ := List.exists_cons_of_ne_nil hne
  have hdig : c.isDigit = true := hall c (by simp)
  have hdrop : (c :: cs).dropWhile jsIsSpace = c :: cs := by
    rw [List.dropWhile_cons, digit_not_space hdig]
    simp
  simp only [jsParseInt, hdrop, List.head?]
  rw [if_neg (by simpa using digit_ne_minus hdig),
      if_neg (by simpa using digit_ne_plus hdig)]
  simp only [jsDigitsOpt, takeWhile_of_all hall]
  rw [if_neg (by simp)]
  simp

theorem jsParseInt_natToChars (n : Nat) : jsParseInt (natToChars n) = some (n : Int) := by
  rw [jsParseInt_digits (natToChars_ne_nil n) (natToChars_all_digit n),
    digitsVal_natToChars n]

theorem toInt32_small {i : Int} (h0 : 0 ≤ i) (h1 : i < 2147483648) : toInt32 i = i := by
  unfold toInt32
  split <;> omega

theorem toInt32_mod (i : Int) : (toInt32 i) % 4294967296 = i % 4294967296 := by
  unfold toInt32
  split <;> omega

theorem toUint32_ofNat {n : Nat} (h : n < 4294967296) : toUint32 (n : Int) = n := by
  unfold toUint32
  omega

theorem jsShl8_small {x : Int} (h0 : 0 ≤ x) (h1 : x < 8388608) : jsShl8 (some x) = x * 256 := by
  simp only [jsShl8, jsToInt32]
  rw [toInt32_small h0 (by omega), toInt32_small (by omega) (by omega)]

theorem jsShl8_mod {x : Int} (h0 : 0 ≤ x) (h1 : x < 2147483648) :
    jsShl8 (some x) % 4294967296 = (x * 256) % 4294967296 := by
  simp only [jsShl8, jsToInt32]
  rw [toInt32_small h0 h1]
  exact toInt32_mod _

/-- The numeric value of four octets, network byte order. -/
def ipVal (a b c d : Nat) : Nat := a * 16777216 + b * 65536 + c * 256 + d

theorem ipToNumber_parts {s p0 p1 p2 p3 : JSStr} {a b c d : Nat}
    (hs : jsSplit '.' s = [p0, p1, p2, p3])
    (h0 : jsParseInt p0 = some (a : Int)) (h1 : jsParseInt p1 = some (b : Int))
    (h2 : jsParseInt p2 = some (c : Int)) (h3 : jsParseInt p3 = some (d : Int))
    (ha : a ≤ 255) (hb : b ≤ 255) (hc : c ≤ 255) (hd : d ≤ 255) :
    ipToNumber s = ipVal a b c d := by
  unfold ipToNumber
  rw [hs]
  simp only [List.foldl, h0, h1, h2, h3]
  have e0 : jsAdd (some (jsShl8 (some 0))) (some (a : Int)) = some (a : Int) := by
    rw [jsShl8_small (by omega) (by omega)]
    simp [jsAdd]
  rw [e0]
  have e1 : jsAdd (some (jsShl8 (some (a : Int)))) (some (b : Int)) =
      some ((a : Int) * 256 + b) := by
    rw [jsShl8_small (by positivity) (by omega)]
    simp [jsAdd]
  rw [e1]
  have e2 : jsAdd (some (jsShl8 (some ((a : Int) * 256 + b)))) (some (c : Int)) =
      some (((a : Int) * 256 + b) * 256 + c) := by
    rw [jsShl8_small (by positivity) (by omega)]
    simp [jsAdd]
  rw [e2]
  have hmod : jsShl8 (some (((a : Int) * 256 + b) * 256 + c)) % 4294967296 =
      ((((a : Int) * 256 + b) * 256 + c) * 256) % 4294967296 :=
    jsShl8_mod (by positivity) (by omega)
  simp only [jsAdd, jsToUint32, toUint32]
  generalize hgen : jsShl8 (some (((a : Int) * 256 + b) * 256 + c)) = t at hmod
  unfold ipVal
  omega

theorem jsIntercalate_four (A B C D : JSStr) (sep : Char) :
    jsIntercalate sep [A, B, C, D] = A ++ sep :: (B ++ sep :: (C ++ sep :: D)) := by
  simp [jsIntercalate]

theorem jsSplit_intercalate_four {A B C D : JSStr} (sep : Char)
    (hA : sep ∉ A) (hB : sep ∉ B) (hC : sep ∉ C) (hD : sep ∉ D) :
    jsSplit sep (jsIntercalate sep [A, B, C, D]) = [A, B, C, D] := by
  rw [jsIntercalate_four, jsSplit_sep_cons _ hA, jsSplit_sep_cons _ hB,
    jsSplit_sep_cons _ hC, jsSplit_no_sep hD]

/-- The canonical dotted-quad string of four octet values. -/
def ipDotQuad (a b c d : Nat) : JSStr :=
  jsIntercalate '.' [natToChars a, natToChars b, natToChars c, natToChars d]

/-- The canonical CIDR string `a.b.c.d/p`. -/
def cidrNotation (a b c d p : Nat) : JSStr := ipDotQuad a b c d ++ '/' :: natToChars p

/-- The ascending list of the dotted-quad forms of all addresses from
`firstNum` to `lastNum` inclusive (spec-side description of the enumeration). -/
def hostsBetween (firstNum lastNum : Nat) : List JSStr :=
  (List.range (lastNum + 1 - firstNum)).map
    (fun i => numberToIp (some ((firstNum + i : Nat) : Int)))

theorem not_mem_ipDotQuad {e : Char} (hdig : e.isDigit = false) (hdot : e ≠ '.')
    (a b c d : Nat) : e ∉ ipDotQuad a b c d := by
  unfold ipDotQuad
  rw [jsIntercalate_four]
  intro hmem
  simp only [List.mem_append, List.mem_cons] at hmem
  rcases hmem with h | h | h | h | h | h | h
  · exact not_mem_natToChars hdig a h
  · exact hdot h
  · exact not_mem_natToChars hdig b h
  · exact hdot h
  · exact not_mem_natToChars hdig c h
  · exact hdot h
  · exact not_mem_natToChars hdig d h

theorem ipToNumber_dotQuad {a b c d : Nat}
    (ha : a ≤ 255) (hb : b ≤ 255) (hc : c ≤ 255) (hd : d ≤ 255) :
    ipToNumber (ipDotQuad a b c d) = ipVal a b c d :=
  ipToNumber_parts
    (jsSplit_intercalate_four '.'
      (not_mem_natToChars (by decide) a) (not_mem_natToChars (by decide) b)
      (not_mem_natToChars (by decide) c) (not_mem_natToChars (by decide) d))
    (jsParseInt_natToChars a) (jsParseInt_natToChars b)
    (jsParseInt_natToChars c) (jsParseInt_natToChars d) ha hb hc hd

theorem jsSplit_cidrNotation (a b c d p : Nat) :
    jsSplit '/' (cidrNotation a b c d p) = [ipDotQuad a b c d, natToChars p] := by
  unfold cidrNotation
  rw [jsSplit_sep_cons _ (not_mem_ipDotQuad (by decide) (by decide) a b c d),
    jsSplit_no_sep (not_mem_natToChars (by decide) p)]

theorem parseCIDR_valid {a b c d p : Nat}
    (ha : a ≤ 255) (hb : b ≤ 255) (hc : c ≤ 255) (hd : d ≤ 255) (hp : p ≤ 32) :
    parseCIDR (cidrNotation a b c d p) =
      .ok { network := ipDotQuad a b c d,
            prefixLen := some (p : Int),
            firstHost := numberToIp (some ((ipVal a b c d : Int) + 1)),
            lastHost := numberToIp (some ((ipVal a b c d : Int) + ((2 : Int) ^ (32 - p) - 2))),
            totalHosts := some (max 0 ((2 : Int) ^ (32 - p) - 2)) } := by
  have hguard : (jsLt (some ((p : Nat) : Int)) (some 0) ||
      jsGt (some ((p : Nat) : Int)) (some 32)) = false := by
    simp only [jsLt, jsGt, Bool.or_eq_false_iff, decide_eq_false_iff_not]
    omega
  have htoNat : ((32 : Int) - (p : Nat)).toNat = 32 - p := by omega
  simp only [parseCIDR, jsSplit_cidrNotation, List.get?_cons_succ, List.get?_cons_zero,
    List.headD, jsParseIntU, jsParseInt_natToChars, hguard, Bool.false_eq_true,
    if_false, jsSub, jsPow2, Option.map, jsAdd, jsMax0,
    ipToNumber_dotQuad ha hb hc hd, htoNat]

theorem pow2_le_of_le {m n : Nat} (h : m ≤ n) : (2 : Int) ^ m ≤ 2 ^ n :=
  pow_le_pow_right₀ (by norm_num) h

/-- C8: for a valid CIDR whose host range stays within the 65536-address
guard, enumeration succeeds and is exactly the ascending range between the
parsed first and last host; below a /16 it fails with the size-limit error. -/
theorem enumerateHosts_C8 (a b c d p : Nat)
    (ha : a ≤ 255) (hb : b ≤ 255) (hc : c ≤ 255) (hd : d ≤ 255) (hp : p ≤ 32) :
    (16 ≤ p → ∃ info, parseCIDR (cidrNotation a b c d p) = .ok info ∧
      info.totalHosts = some (max 0 ((2 : Int) ^ (32 - p) - 2)) ∧
      enumerateHosts (cidrNotation a b c d p) =
        .ok (hostsBetween (ipToNumber info.firstHost) (ipToNumber info.lastHost))) ∧
    (p < 16 → enumerateHosts (cidrNotation a b c d p) =
      .error (js "CIDR range too large (max /16)")) := by
  constructor
  · intro h16
    refine ⟨_, parseCIDR_valid ha hb hc hd hp, rfl, ?_⟩
    unfold enumerateHosts
    rw [parseCIDR_valid ha hb hc hd hp]
    have hpow : (2 : Int) ^ (32 - p) ≤ 65536 := by
      calc (2 : Int) ^ (32 - p) ≤ 2 ^ 16 := pow2_le_of_le (by omega)
        _ = 65536 := by norm_num
    have hguard : jsGt (some (max 0 ((2 : Int) ^ (32 - p) - 2))) (some 65536) = false := by
      simp only [jsGt, decide_eq_false_iff_not]
      omega
    simp only [hguard, Bool.false_eq_true, if_false, hostsBetween]
  · intro hlt
    unfold enumerateHosts
    rw [parseCIDR_valid ha hb hc hd hp]
    have hpow : (131072 : Int) ≤ 2 ^ (32 - p) := by
      calc (131072 : Int) = 2 ^ 17 := by norm_num
        _ ≤ 2 ^ (32 - p) := pow2_le_of_le (by omega)
    have hguard : jsGt (some (max 0 ((2 : Int) ^ (32 - p) - 2))) (some 65536) = true := by
      simp only [jsGt, decide_eq_true_eq]
      omega
    simp only [hguard, if_true]

/-- Witness for C8: the `/30` example enumerates exactly two hosts, and the
`/15` example fails with the size-limit error. -/
theorem enumerateHosts_C8_witness :
    enumerateHosts (js "192.168.1.0/30") = .ok [js "192.168.1.1", js "192.168.1.2"] ∧
    enumerateHosts (js "10.0.0.0/15") = .error (js "CIDR range too large (max /16)") :=
  ⟨by decide,
   by
    have h := (enumerateHosts_C8 10 0 0 0 15 (by norm_num) (by norm_num) (by norm_num)
      (by norm_num) (by norm_num)).2 (by norm_num)
    have heq : cidrNotation 10 0 0 0 15 = js "10.0.0.0/15" := by decide
    rwa [heq] at h⟩

theorem length_eq_four {α : Type} {l : List α} (h : l.length = 4) :
    ∃ a b c d, l = [a, b, c, d] := by
  cases l with
  | nil => simp at h
  | cons a l =>
    cases l with
    | nil => simp at h
    | cons b l =>
      cases l with
      | nil => simp at h
      | cons c l =>
        cases l with
        | nil => simp at h
        | cons d l =>
          cases l with
          | nil => exact ⟨a, b, c, d, rfl⟩
          | cons e l => simp at h

/-- C9: `ipToNumber` and `numberToIp` are mutually inverse: on every 32-bit
value, and on every dotted-quad string accepted by `isValidIP`. -/
theorem roundtrip_C9 :
    (∀ n : Nat, n < 4294967296 → ipToNumber (numberToIp (some (n : Int))) = n) ∧
    (∀ s : JSStr, isValidIP s = true →
      numberToIp (some ((ipToNumber s : Nat) : Int)) = s) := by
  constructor
  · intro n hn
    have hju : jsToUint32 (some ((n : Nat) : Int)) = n := toUint32_ofNat hn
    simp only [numberToIp, hju]
    rw [ipToNumber_parts
      (jsSplit_intercalate_four '.'
        (not_mem_natToChars (by decide) _) (not_mem_natToChars (by decide) _)
        (not_mem_natToChars (by decide) _) (not_mem_natToChars (by decide) _))
      (jsParseInt_natToChars _) (jsParseInt_natToChars _)
      (jsParseInt_natToChars _) (jsParseInt_natToChars _)
      (by omega) (by omega) (by omega) (by omega)]
    unfold ipVal
    omega
  · intro s hv
    simp only [isValidIP, Bool.and_eq_true, beq_iff_eq, List.all_eq_true] at hv
    obtain ⟨hlen, hall⟩ := hv
    obtain ⟨p0, p1, p2, p3, hps⟩ := length_eq_four hlen
    have hfacts : ∀ q ∈ jsSplit '.' s, ∃ aq : Nat, aq ≤ 255 ∧
        jsParseInt q = some ((aq : Nat) : Int) ∧ q = natToChars aq := by
      intro q hq
      have hqf := hall q hq
      cases hpq : jsParseInt q with
      | none => rw [hpq] at hqf; simp at hqf
      | some v =>
        rw [hpq] at hqf
        simp only [Bool.and_eq_true, decide_eq_true_eq, beq_iff_eq] at hqf
        obtain ⟨⟨h0v, h255⟩, heqv⟩ := hqf
        refine ⟨v.toNat, by omega, ?_, ?_⟩
        · congr 1
          omega
        · rw [heqv, jsIntToChars, if_neg (by omega)]
    obtain ⟨a0, ha0, hp0, he0⟩ := hfacts p0 (by rw [hps]; simp)
    obtain ⟨a1, ha1, hp1, he1⟩ := hfacts p1 (by rw [hps]; simp)
    obtain ⟨a2, ha2, hp2, he2⟩ := hfacts p2 (by rw [hps]; simp)
    obtain ⟨a3, ha3, hp3, he3⟩ := hfacts p3 (by rw [hps]; simp)
    have hnum : ipToNumber s = ipVal a0 a1 a2 a3 :=
      ipToNumber_parts hps hp0 hp1 hp2 hp3 ha0 ha1 ha2 ha3
    have hlt : ipVal a0 a1 a2 a3 < 4294967296 := by unfold ipVal; omega
    rw [hnum]
    have hju : jsToUint32 (some ((ipVal a0 a1 a2 a3 : Nat) : Int)) = ipVal a0 a1 a2 a3 :=
      toUint32_ofNat hlt
    simp only [numberToIp, hju]
    have hd0 : ipVal a0 a1 a2 a3 / 16777216 % 256 = a0 := by unfold ipVal; omega
    have hd1 : ipVal a0 a1 a2 a3 / 65536 % 256 = a1 := by unfold ipVal; omega
    have hd2 : ipVal a0 a1 a2 a3 / 256 % 256 = a2 := by unfold ipVal; omega
    have hd3 : ipVal a0 a1 a2 a3 % 256 = a3 := by unfold ipVal; omega
    rw [hd0, hd1, hd2, hd3, ← he0, ← he1, ← he2, ← he3, ← hps,
      jsIntercalate_jsSplit]

/-- Witness for C9: the round trip holds at `4294967295` and at `"0.0.0.0"`. -/
theorem roundtrip_C9_witness :
    ipToNumber (numberToIp (some ((4294967295 : Nat) : Int))) = 4294967295 ∧
    numberToIp (some ((ipToNumber (js "0.0.0.0") : Nat) : Int)) = js "0.0.0.0" :=
  ⟨roundtrip_C9.1 4294967295 (by norm_num), roundtrip_C9.2 (js "0.0.0.0") (by decide)⟩

/-- C7 (amended): `parseCIDR` fails exactly when the prefix component parses
(per JS `parseInt`) to a number outside `[0, 32]`; a missing or non-numeric
prefix parses to NaN, which the guard does not reject. -/
theorem parseCIDR_C7_amended (s : JSStr) :
    (∃ e, parseCIDR s = .error e) ↔
    (∃ v : Int, jsParseIntU ((jsSplit '/' s).get? 1) = some v ∧ (v < 0 ∨ 32 < v)) := by
  simp only [parseCIDR, List.get?_eq_getElem?]
  cases hp : jsParseIntU ((jsSplit '/' s)[1]?) with
  | none => simp [jsLt, jsGt]
  | some v =>
    by_cases hout : v < 0 ∨ 32 < v
    · have hguard : (jsLt (some v) (some 0) || jsGt (some v) (some 32)) = true := by
        simp only [jsLt, jsGt, Bool.or_eq_true, decide_eq_true_eq]
        omega
      rw [hguard]
      simp only [if_true]
      exact ⟨fun _ => ⟨v, rfl, hout⟩, fun _ => ⟨js "Invalid CIDR prefix", rfl⟩⟩
    · have hguard : (jsLt (some v) (some 0) || jsGt (some v) (some 32)) = false := by
        simp only [jsLt, jsGt, Bool.or_eq_false_iff, decide_eq_false_iff_not]
        omega
      rw [hguard]
      simp only [Bool.false_eq_true, if_false]
      constructor
      · rintro ⟨e, he⟩
        exact absurd he (by simp)
      · rintro ⟨v', hv', hout'⟩
        rw [Option.some_inj] at hv'
        subst hv'
        exact absurd hout' hout

/-- Counterexample for C7: a non-numeric prefix is not rejected —
`parseCIDR("192.168.1.0/x")` succeeds, as does a missing prefix. -/
theorem parseCIDR_C7_counterexample :
    (parseCIDR (js "192.168.1.0/x")).isOk = true ∧
    (parseCIDR (js "192.168.1.0")).isOk = true := by decide

/-- Witness for C7 (amended): prefixes `33` and `-1` are rejected. -/
theorem parseCIDR_C7_witness :
    (∃ e, parseCIDR (js "10.0.0.0/33") = .error e) ∧
    (∃ e, parseCIDR (js "10.0.0.0/-1") = .error e) :=
  ⟨(parseCIDR_C7_amended (js "10.0.0.0/33")).mpr ⟨33, by decide, by decide⟩,
   (parseCIDR_C7_amended (js "10.0.0.0/-1")).mpr ⟨-1, by decide, by decide⟩⟩

theorem mapGet_mapSet_self (m : List (JSStr × WizDevice)) (k : JSStr) (v : WizDevice) :
    mapGet (mapSet m k v) k = some v := by
  induction m with
  | nil => simp [mapGet, mapSet]
  | cons kv rest ih =>
    obtain ⟨k', v'⟩ := kv
    simp only [mapSet]
    by_cases hk : k' = k
    · rw [if_pos hk]
      simp [mapGet]
    · rw [if_neg hk]
      simp only [mapGet, if_neg hk]
      exact ih

/-- C10: a replace-merge keeps only `id`, `ip`, `mac`, `confidence`,
`lastSeen`, `rssi` and the state fields `power`/`brightness`/`colorTemp`/
`sceneId`; `name`, `model`, `groups`, `state.rgb` and `state.speed` are absent
from the merged record whatever the inputs carried. -/
theorem merge_frame_C10 (now : Int) (existing newDevice : WizDevice) :
    (mergeDevices now existing newDevice).name = none ∧
    (mergeDevices now existing newDevice).model = none ∧
    (mergeDevices now existing newDevice).groups = none ∧
    ∃ s, (mergeDevices now existing newDevice).state = some s ∧
      s.rgb = none ∧ s.speed = none :=
  ⟨rfl, rfl, rfl, _, rfl, rfl, rfl⟩

theorem merge_confidence_formula (nc ec : ConfidenceLevel) :
    (if nc = ConfidenceLevel.high then ConfidenceLevel.high else ec) =
    (if nc = ConfidenceLevel.high ∨ ec = ConfidenceLevel.high
      then ConfidenceLevel.high else ec) := by
  cases nc <;> cases ec <;> decide

theorem merge_confidence_mono (nc ec : ConfidenceLevel) :
    confidenceOrder ec ≤
      confidenceOrder (if nc = ConfidenceLevel.high then ConfidenceLevel.high else ec) := by
  cases nc <;> cases ec <;> decide

/-- C3: merged confidence is `high` when either side is `high` and otherwise
the existing record's confidence; hence the registry step of a scan never
decreases the stored confidence, and the no-replace path leaves it
unchanged. -/
theorem merge_confidence_C3 :
    (∀ (now : Int) (e n : WizDevice), (mergeDevices now e n).confidence =
      (if n.confidence = ConfidenceLevel.high ∨ e.confidence = ConfidenceLevel.high
        then ConfidenceLevel.high else e.confidence)) ∧
    (∀ (now : Int) (e n : WizDevice),
      confidenceOrder e.confidence ≤ confidenceOrder (mergeDevices now e n).confidence) ∧
    (∀ (now : Int) (devices : List (JSStr × WizDevice)) (d e : WizDevice),
      mapGet devices d.id = some e →
      ∃ e', mapGet (integrateDevice now devices d).1 d.id = some e' ∧
        confidenceOrder e.confidence ≤ confidenceOrder e'.confidence ∧
        (shouldUpdateDevice e d = false → e'.confidence = e.confidence)) := by
  refine ⟨?_, ?_, ?_⟩
  · intro now e n
    show (if n.confidence = ConfidenceLevel.high then ConfidenceLevel.high else e.confidence) = _
    exact merge_confidence_formula n.confidence e.confidence
  · intro now e n
    exact merge_confidence_mono n.confidence e.confidence
  · intro now devices d e hget
    unfold integrateDevice
    simp only [hget]
    by_cases hu : shouldUpdateDevice e d = true
    · rw [if_pos hu]
      refine ⟨mergeDevices now e d, mapGet_mapSet_self devices d.id _, ?_, ?_⟩
      · exact merge_confidence_mono d.confidence e.confidence
      · intro hfalse
        rw [hu] at hfalse
        exact absurd hfalse (by simp)
    · rw [if_neg hu]
      exact ⟨{ e with lastSeen := now }, mapGet_mapSet_self devices d.id _,
        le_refl _, fun _ => rfl⟩

/-- Witness for C3: the registry step applied to a concrete existing record
and a concrete higher-confidence candidate with the same id. -/
theorem merge_confidence_C3_witness :
    ∃ e', mapGet (integrateDevice 5
        [(js "aa:bb", { id := js "aa:bb", ip := js "1.1.1.1",
                        confidence := ConfidenceLevel.medium, lastSeen := 0 })]
        { id := js "aa:bb", ip := js "1.1.1.2",
          confidence := ConfidenceLevel.high, lastSeen := 1 }).1
      ({ id := js "aa:bb", ip := js "1.1.1.2",
         confidence := ConfidenceLevel.high, lastSeen := 1 } : WizDevice).id = some e' ∧
      confidenceOrder ConfidenceLevel.medium ≤ confidenceOrder e'.confidence ∧
      (shouldUpdateDevice
          { id := js "aa:bb", ip := js "1.1.1.1",
            confidence := ConfidenceLevel.medium, lastSeen := 0 }
          { id := js "aa:bb", ip := js "1.1.1.2",
            confidence := ConfidenceLevel.high, lastSeen := 1 } = false →
        e'.confidence = ConfidenceLevel.medium) :=
  merge_confidence_C3.2.2 5
    [(js "aa:bb", { id := js "aa:bb", ip := js "1.1.1.1",
                    confidence := ConfidenceLevel.medium, lastSeen := 0 })]
    { id := js "aa:bb", ip := js "1.1.1.2",
      confidence := ConfidenceLevel.high, lastSeen := 1 }
    { id := js "aa:bb", ip := js "1.1.1.1",
      confidence := ConfidenceLevel.medium, lastSeen := 0 }
    (by decide)

/-- The feature count in the claim's own words: presence of `mac`, presence of
`rssi`, and presence of each of `brightness`, `colorTemp`, `sceneId`, `power`
within `state` (`power` is required, so it is present with `state`). -/
def specFeatureCount (d : WizDevice) : Nat :=
  (if d.mac.isSome then 1 else 0) + (if d.rssi.isSome then 1 else 0) +
  (match d.state with
   | none => 0
   | some s =>
     (if s.brightness.isSome then 1 else 0) + (if s.colorTemp.isSome then 1 else 0) +
     (if s.sceneId.isSome then 1 else 0) + 1)

/-- The feature count actually computed by the code: identical to
`specFeatureCount` except that an empty-string `mac` does not count
(JS truthiness). -/
def specFeatureCountTruthy (d : WizDevice) : Nat :=
  (if jsTruthyOptStr d.mac then 1 else 0) + (if d.rssi.isSome then 1 else 0) +
  (match d.state with
   | none => 0
   | some s =>
     (if s.brightness.isSome then 1 else 0) + (if s.colorTemp.isSome then 1 else 0) +
     (if s.sceneId.isSome then 1 else 0) + 1)

theorem countDeviceFeatures_eq_truthy (d : WizDevice) :
    countDeviceFeatures d = specFeatureCountTruthy d := by
  cases hs : d.state with
  | none =>
    simp only [countDeviceFeatures, specFeatureCountTruthy, hs]
    split_ifs <;> omega
  | some s =>
    simp only [countDeviceFeatures, specFeatureCountTruthy, hs]
    split_ifs <;> omega

/-- C2 (amended): the candidate replaces the existing record iff its feature
count strictly exceeds the existing one's or its confidence is strictly
higher, where the feature count reads "presence of `mac`" as JS truthiness
(an empty-string `mac` does not count). -/
theorem shouldUpdate_C2_amended (existing newDevice : WizDevice) :
    shouldUpdateDevice existing newDevice = true ↔
    (specFeatureCountTruthy newDevice > specFeatureCountTruthy existing ∨
     confidenceOrder newDevice.confidence > confidenceOrder existing.confidence) := by
  unfold shouldUpdateDevice
  rw [countDeviceFeatures_eq_truthy, countDeviceFeatures_eq_truthy]
  by_cases h1 : specFeatureCountTruthy newDevice > specFeatureCountTruthy existing
  · simp [h1]
  · by_cases h2 : confidenceOrder newDevice.confidence > confidenceOrder existing.confidence
    · simp [h1, h2]
    · simp [h1, h2]

/-- Counterexample for C2: with an existing record whose `mac` is the empty
string (present but falsy) and a candidate with one more truthy field, the
code replaces even though the presence-based counts are equal and the
confidences are equal. -/
theorem shouldUpdate_C2_counterexample :
    shouldUpdateDevice
        { id := js "x", ip := js "1.2.3.4", mac := some (js ""),
          confidence := ConfidenceLevel.high, lastSeen := 0 }
        { id := js "x", ip := js "1.2.3.4", rssi := some 1,
          confidence := ConfidenceLevel.high, lastSeen := 0 } = true ∧
    ¬ (specFeatureCount
          { id := js "x", ip := js "1.2.3.4", rssi := some 1,
            confidence := ConfidenceLevel.high, lastSeen := 0 } >
        specFeatureCount
          { id := js "x", ip := js "1.2.3.4", mac := some (js ""),
            confidence := ConfidenceLevel.high, lastSeen := 0 } ∨
       confidenceOrder ConfidenceLevel.high > confidenceOrder ConfidenceLevel.high) := by
  constructor
  · decide
  · decide

theorem replySuccess_iff (out : SendOutcome) :
    replySuccess out = true ↔
    ∃ resp, out = .ok resp ∧ resp.result.isSome = true ∧ resp.error = none := by
  cases out with
  | error e => simp [replySuccess]
  | ok resp =>
    simp only [replySuccess, Bool.and_eq_true, Option.isNone_iff_eq_none]
    constructor
    · intro h
      exact ⟨resp, rfl, h.1, h.2⟩
    · rintro ⟨r, hr, h1, h2⟩
      cases hr
      exact ⟨h1, h2⟩

/-- C6 (amended): every setter returns `true` exactly when a reply was
received that carries a `result` field and no `error` field; it returns
`false` on timeouts, transport errors, decode failures, replies with an
`error` field, and replies with no `result` field.  No setter issues a second
query to verify the device state. -/
theorem setters_C6_amended (out : SendOutcome) (power : Bool)
    (brightness temp r g b sceneId speed : Int) (st : StatePatch) :
    (setPower (fun _ => out) power = true ↔
      ∃ resp, out = .ok resp ∧ resp.result.isSome = true ∧ resp.error = none) ∧
    (setBrightness (fun _ => out) brightness = true ↔
      ∃ resp, out = .ok resp ∧ resp.result.isSome = true ∧ resp.error = none) ∧
    (setColorTemp (fun _ => out) temp = true ↔
      ∃ resp, out = .ok resp ∧ resp.result.isSome = true ∧ resp.error = none) ∧
    (setRGB (fun _ => out) r g b = true ↔
      ∃ resp, out = .ok resp ∧ resp.result.isSome = true ∧ resp.error = none) ∧
    (setState (fun _ => out) st = true ↔
      ∃ resp, out = .ok resp ∧ resp.result.isSome = true ∧ resp.error = none) ∧
    (setScene (fun _ => out) sceneId speed = true ↔
      ∃ resp, out = .ok resp ∧ resp.result.isSome = true ∧ resp.error = none) :=
  ⟨replySuccess_iff out, replySuccess_iff out, replySuccess_iff out,
   replySuccess_iff out, replySuccess_iff out, replySuccess_iff out⟩

/-- Counterexample for C6: a reply that carries no `error` field (and no
`result` field) makes every setter return `false`, though the claim says a
reply without an error field yields `true`. -/
theorem setters_C6_counterexample :
    setPower (fun _ => Except.ok ({} : WizResponse)) true = false ∧
    ({} : WizResponse).error = none := by
  constructor
  · decide
  · rfl

theorem setStateParams_eq (st : StatePatch) :
    setStateParams st =
      { state := st.power,
        dimming := st.brightness.map (fun b => max 10 (min 100 b)),
        temp := st.colorTemp.map (fun t => max 2200 (min 6500 t)),
        r := st.rgb.map (fun c => max 0 (min 255 c.r)),
        g := st.rgb.map (fun c => max 0 (min 255 c.g)),
        b := st.rgb.map (fun c => max 0 (min 255 c.b)),
        speed := st.speed,
        sceneId := st.sceneId } := by
  obtain ⟨pw, br, ct, rgbv, spd, sci⟩ := st
  cases pw <;> cases br <;> cases ct <;> cases rgbv <;> cases spd <;> cases sci <;> rfl

/-- C1 (amended): `setBrightness`, `setColorTemp` and `setRGB` transmit
clamped values; `setState` clamps `brightness`, `colorTemp` and the RGB
channels but forwards `speed` (and `sceneId` and `power`) verbatim; `setScene`
clamps `speed` to `[0, 200]`; and `probeHost` stores the probe reply's state
values in the registry record verbatim, without clamping. -/
theorem clamp_C1_amended :
    (∀ b : Int, ∃ v, (setBrightnessParams b).dimming = some v ∧
      v = max 10 (min 100 b) ∧ 10 ≤ v ∧ v ≤ 100) ∧
    (∀ t : Int, ∃ v, (setColorTempParams t).temp = some v ∧
      v = max 2200 (min 6500 t) ∧ 2200 ≤ v ∧ v ≤ 6500) ∧
    (∀ r g b : Int, ∃ vr vg vb, (setRGBParams r g b).r = some vr ∧
      (setRGBParams r g b).g = some vg ∧ (setRGBParams r g b).b = some vb ∧
      0 ≤ vr ∧ vr ≤ 255 ∧ 0 ≤ vg ∧ vg ≤ 255 ∧ 0 ≤ vb ∧ vb ≤ 255) ∧
    (∀ st : StatePatch,
      (setStateParams st).state = st.power ∧
      (setStateParams st).dimming = st.brightness.map (fun b => max 10 (min 100 b)) ∧
      (setStateParams st).temp = st.colorTemp.map (fun t => max 2200 (min 6500 t)) ∧
      (setStateParams st).r = st.rgb.map (fun c => max 0 (min 255 c.r)) ∧
      (setStateParams st).g = st.rgb.map (fun c => max 0 (min 255 c.g)) ∧
      (setStateParams st).b = st.rgb.map (fun c => max 0 (min 255 c.b)) ∧
      (setStateParams st).speed = st.speed ∧
      (setStateParams st).sceneId = st.sceneId) ∧
    (∀ sceneId speed : Int, ∃ v, (setSceneParams sceneId speed).speed = some v ∧
      v = max 0 (min 200 speed) ∧ 0 ≤ v ∧ v ≤ 200) ∧
    (∀ (ouiL : JSStr → Option JSStr) (ip : JSStr) (arp : Option ARPEntry)
        (sys : Option WizResponse) (now : Int) (mo en : Option JSStr)
        (err : Option WizError) (res : WizResult),
      (probeHost ouiL ip arp
          (some { method := mo, env := en, result := some res, error := err })
          sys now).map (fun d => d.state) =
        some (some { power := res.state.getD false, brightness := res.dimming,
                     colorTemp := res.temp, sceneId := res.sceneId })) := by
  refine ⟨?_, ?_, ?_, ?_, ?_, ?_⟩
  · intro b
    exact ⟨max 10 (min 100 b), rfl, rfl, by omega, by omega⟩
  · intro t
    exact ⟨max 2200 (min 6500 t), rfl, rfl, by omega, by omega⟩
  · intro r g b
    exact ⟨max 0 (min 255 r), max 0 (min 255 g), max 0 (min 255 b),
      rfl, rfl, rfl, by omega, by omega, by omega, by omega, by omega, by omega⟩
  · intro st
    rw [setStateParams_eq]
    exact ⟨rfl, rfl, rfl, rfl, rfl, rfl, rfl, rfl⟩
  · intro sceneId speed
    exact ⟨max 0 (min 200 speed), rfl, rfl, by omega, by omega⟩
  · intro ouiL ip arp sys now mo en err res
    rfl

/-- Counterexample for C1: `setState` transmits `speed` unclamped — with
input speed `999` the transmitted `speed` parameter is `999`, outside
`[0, 200]`; and a probe reply with `dimming: 250` is stored with
`brightness = 250`, outside `[10, 100]`. -/
theorem clamp_C1_counterexample :
    (setStateParams { speed := some 999 }).speed = some 999 ∧
    ¬ (∃ v, (setStateParams { speed := some 999 }).speed = some v ∧
        0 ≤ v ∧ v ≤ 200) ∧
    ((probeHost (fun _ => none) (js "1.2.3.4") none
        (some { result := some { dimming := some 250 } }) none 0).map
      (fun d => d.state.map (fun s => s.brightness))) = some (some (some 250)) := by
  refine ⟨by decide, ?_, by decide⟩
  rintro ⟨v, hv, h0, h200⟩
  have he : (setStateParams { speed := some 999 }).speed = some 999 := by decide
  rw [he, Option.some_inj] at hv
  omega

theorem jsSplit_parts_no_sep {sep : Char} : ∀ {l : JSStr} {p : JSStr},
    p ∈ jsSplit sep l → sep ∉ p := by
  intro l
  induction l with
  | nil =>
    intro p hp
    simp [jsSplit] at hp
    subst hp
    simp
  | cons c rest ih =>
    intro p hp
    obtain ⟨h, t, hs⟩ : ∃ h t, jsSplit sep rest = h :: t := by
      cases hs : jsSplit sep rest with
      | nil => exact absurd hs (jsSplit_ne_nil sep rest)
      | cons h t => exact ⟨h, t, rfl⟩
    simp only [jsSplit] at hp
    rw [hs] at hp
    simp only [List.headD_cons, List.tail_cons] at hp
    have hh : h ∈ jsSplit sep rest := by rw [hs]; exact List.mem_cons_self h t
    have hht : ∀ q ∈ t, q ∈ jsSplit sep rest := by
      intro q hq
      rw [hs]
      exact List.mem_cons_of_mem h hq
    by_cases hc : c = sep
    · rw [if_pos hc] at hp
      rcases List.mem_cons.mp hp with rfl | hp2
      · simp
      · rcases List.mem_cons.mp hp2 with rfl | hp3
        · exact ih hh
        · exact ih (hht p hp3)
    · rw [if_neg hc] at hp
      rcases List.mem_cons.mp hp with rfl | hp2
      · intro hmem
        rcases List.mem_cons.mp hmem with rfl | hmem2
        · exact hc rfl
        · exact ih hh hmem2
      · exact ih (hht p hp2)

theorem jsSplit_jsIntercalate {sep : Char} : ∀ {parts : List JSStr},
    parts ≠ [] → (∀ p ∈ parts, sep ∉ p) →
    jsSplit sep (jsIntercalate sep parts) = parts := by
  intro parts
  induction parts with
  | nil => intro h; exact absurd rfl h
  | cons x xs ih =>
    intro _ hfree
    cases xs with
    | nil =>
      show jsSplit sep x = [x]
      exact jsSplit_no_sep (hfree x (by simp))
    | cons y ys =>
      show jsSplit sep (x ++ sep :: jsIntercalate sep (y :: ys)) = _
      rw [jsSplit_sep_cons _ (hfree x (by simp))]
      rw [ih (by simp) (fun p hp => hfree p (List.mem_cons_of_mem x hp))]

theorem mem_jsIntercalate {sep c : Char} : ∀ {parts : List JSStr},
    c ∈ jsIntercalate sep parts → c = sep ∨ ∃ p ∈ parts, c ∈ p := by
  intro parts
  induction parts with
  | nil => intro h; simp [jsIntercalate] at h
  | cons x xs ih =>
    intro h
    cases xs with
    | nil =>
      right
      exact ⟨x, by simp, h⟩
    | cons y ys =>
      rw [show jsIntercalate sep (x :: y :: ys) = x ++ sep :: jsIntercalate sep (y :: ys)
        from rfl] at h
      rcases List.mem_append.mp h with hx | hr
      · exact Or.inr ⟨x, by simp, hx⟩
      · rcases List.mem_cons.mp hr with rfl | hrest
        · exact Or.inl rfl
        · rcases ih hrest with hsep | ⟨p, hp, hcp⟩
          · exact Or.inl hsep
          · exact Or.inr ⟨p, List.mem_cons_of_mem x hp, hcp⟩

theorem mem_of_mem_jsSplit {sep : Char} : ∀ {l p : JSStr},
    p ∈ jsSplit sep l → ∀ {c : Char}, c ∈ p → c ∈ l := by
  intro l
  induction l with
  | nil =>
    intro p hp c hc
    simp [jsSplit] at hp
    subst hp
    simp at hc
  | cons a rest ih =>
    intro p hp c hc
    obtain ⟨h, t, hs⟩ : ∃ h t, jsSplit sep rest = h :: t := by
      cases hs : jsSplit sep rest with
      | nil => exact absurd hs (jsSplit_ne_nil sep rest)
      | cons h t => exact ⟨h, t, rfl⟩
    simp only [jsSplit] at hp
    rw [hs] at hp
    simp only [List.headD_cons, List.tail_cons] at hp
    have hh : h ∈ jsSplit sep rest := by rw [hs]; exact List.mem_cons_self h t
    have hht : ∀ q ∈ t, q ∈ jsSplit sep rest := by
      intro q hq
      rw [hs]
      exact List.mem_cons_of_mem h hq
    by_cases hca : a = sep
    · rw [if_pos hca] at hp
      rcases List.mem_cons.mp hp with rfl | hp2
      · simp at hc
      · rcases List.mem_cons.mp hp2 with rfl | hp3
        · exact List.mem_cons_of_mem a (ih hh hc)
        · exact List.mem_cons_of_mem a (ih (hht p hp3) hc)
    · rw [if_neg hca] at hp
      rcases List.mem_cons.mp hp with rfl | hp2
      · rcases List.mem_cons.mp hc with rfl | hc2
        · exact List.mem_cons_self c rest
        · exact List.mem_cons_of_mem a (ih hh hc2)
      · exact List.mem_cons_of_mem a (ih (hht p hp2) hc)

/-- No character of the string is an uppercase ASCII letter (codepoint in
`[65, 90]`). -/
def specNoUpper (s : JSStr) : Bool :=
  s.all (fun c => !(decide (65 ≤ c.toNat) && decide (c.toNat ≤ 90)))

/-- The spec's normal form for a stored MAC: six colon-separated octets, each
exactly two lowercase hex digits. -/
def specNormalizedMac (m : JSStr) : Bool :=
  let parts := jsSplit ':' m
  parts.length == 6 && parts.all (fun p => p.length == 2 &&
    p.all (fun c => c.isDigit || (decide ('a' ≤ c) && decide (c ≤ 'f'))))

theorem toLower_not_upper (c : Char) :
    ¬ (65 ≤ (Char.toLower c).toNat ∧ (Char.toLower c).toNat ≤ 90) := by
  have ht : Char.toLower c =
      if c.toNat ≥ 65 ∧ c.toNat ≤ 90 then Char.ofNat (c.toNat + 32) else c := rfl
  by_cases h : c.toNat ≥ 65 ∧ c.toNat ≤ 90
  · rw [ht, if_pos h]
    have hvalid : Nat.isValidChar (c.toNat + 32) := by
      unfold Nat.isValidChar
      left
      omega
    have hval : (Char.ofNat (c.toNat + 32)).toNat = c.toNat + 32 := by
      rw [Char.ofNat, dif_pos hvalid]
      rfl
    rw [hval]
    omega
  · rw [ht, if_neg h]
    exact h

/-- C5 (amended): a MAC taken from the ARP table is lowercased, dash-to-colon
converted (Windows) and each colon-separated group left-padded with `'0'` to
at least two characters — so every group of the stored value has length at
least 2 and no character is an uppercase letter; but a MAC taken from a probe
reply, and likewise a MAC taken from a system-config reply (when neither an
ARP entry nor a probe-reply MAC is available), is stored merely lowercased,
with no colon or padding normalization. -/
theorem mac_C5_amended :
    (∀ (isWindows : Bool) (raw : JSStr),
      ((jsSplit ':' (arpNormalizeMac isWindows raw)).all
        (fun p => decide (2 ≤ p.length))) = true ∧
      specNoUpper (arpNormalizeMac isWindows raw) = true) ∧
    (∀ (ouiL : JSStr → Option JSStr) (ip : JSStr) (sys : Option WizResponse)
        (now : Int) (mo en : Option JSStr) (err : Option WizError)
        (res : WizResult) (raw : JSStr),
      res.mac = some raw → raw ≠ [] →
      (probeHost ouiL ip none
          (some { method := mo, env := en, result := some res, error := err })
          sys now).map (fun d => d.mac) = some (some (jsToLower raw))) ∧
    (∀ (ouiL : JSStr → Option JSStr) (ip : JSStr) (now : Int)
        (mo en smo sen : Option JSStr) (err serr : Option WizError)
        (res sres : WizResult) (raw : JSStr),
      res.mac = none → sres.mac = some raw → raw ≠ [] →
      (probeHost ouiL ip none
          (some { method := mo, env := en, result := some res, error := err })
          (some { method := smo, env := sen, result := some sres, error := serr })
          now).map (fun d => d.mac) = some (some (jsToLower raw))) := by
  refine ⟨?_, ?_, ?_⟩
  · intro isWindows raw
    simp only [arpNormalizeMac]
    set m2 : JSStr := if isWindows
      then (jsToLower raw).map (fun c => if c = '-' then ':' else c)
      else jsToLower raw with hm2
    have hsplit : jsSplit ':' (jsIntercalate ':'
        ((jsSplit ':' m2).map (fun part => List.replicate (2 - part.length) '0' ++ part))) =
        (jsSplit ':' m2).map (fun part => List.replicate (2 - part.length) '0' ++ part) := by
      apply jsSplit_jsIntercalate
      · simp [jsSplit_ne_nil]
      · intro p hp
        obtain ⟨q, hq, rfl⟩ := List.mem_map.mp hp
        intro hmem
        rcases List.mem_append.mp hmem with hrep | hq2
        · have := List.eq_of_mem_replicate hrep
          exact absurd this (by decide)
        · exact jsSplit_parts_no_sep hq hq2
    have hm2chars : ∀ c ∈ m2, ¬ (65 ≤ c.toNat ∧ c.toNat ≤ 90) := by
      intro c hc
      rw [hm2] at hc
      by_cases hw : isWindows
      · rw [if_pos hw] at hc
        obtain ⟨x, hx, rfl⟩ := List.mem_map.mp hc
        obtain ⟨y, hy, rfl⟩ := List.mem_map.mp hx
        by_cases hd : Char.toLower y = '-'
        · rw [if_pos hd]
          decide
        · rw [if_neg hd]
          exact toLower_not_upper y
      · rw [if_neg hw] at hc
        obtain ⟨y, hy, rfl⟩ := List.mem_map.mp hc
        exact toLower_not_upper y
    constructor
    · rw [hsplit, List.all_eq_true]
      intro q hq
      obtain ⟨p, hp, rfl⟩ := List.mem_map.mp hq
      simp only [List.length_append, List.length_replicate, decide_eq_true_eq]
      omega
    · rw [specNoUpper, List.all_eq_true]
      intro c hc
      rcases mem_jsIntercalate hc with rfl | ⟨p, hp, hcp⟩
      · decide
      · obtain ⟨q, hq, rfl⟩ := List.mem_map.mp hp
        rcases List.mem_append.mp hcp with hrep | hq2
        · have := List.eq_of_mem_replicate hrep
          subst this
          decide
        · have hcm2 : c ∈ m2 := mem_of_mem_jsSplit hq hq2
          have := hm2chars c hcm2
          simp only [Bool.not_eq_true', Bool.and_eq_false_iff, decide_eq_false_iff_not]
          omega
  · intro ouiL ip sys now mo en err res raw hmac hne
    have hre : raw.isEmpty = false := by
      cases raw with
      | nil => exact absurd rfl hne
      | cons c cs => rfl
    have hlow : (jsToLower raw).isEmpty = false := by
      cases raw with
      | nil => exact absurd rfl hne
      | cons c cs => rfl
    simp only [probeHost, hmac, Option.map_none', jsTruthyOptStr, jsTruthyStr,
      Option.map_some', hre, hlow, Bool.not_false, Bool.not_true, Bool.true_and,
      Bool.false_and, if_true, if_false, Bool.and_self]
    simp
  · intro ouiL ip now mo en smo sen err serr res sres raw hmac hsmac hne
    have hre : raw.isEmpty = false := by
      cases raw with
      | nil => exact absurd rfl hne
      | cons c cs => rfl
    have hlow : (jsToLower raw).isEmpty = false := by
      cases raw with
      | nil => exact absurd rfl hne
      | cons c cs => rfl
    simp only [probeHost, hmac, hsmac, Option.map_none', jsTruthyOptStr, jsTruthyStr,
      Option.map_some', hre, hlow, Bool.not_false, Bool.not_true, Bool.true_and,
      Bool.false_and, if_true, if_false, Bool.and_self, Option.some_bind]
    simp

/-- Counterexample for C5: a probe reply whose MAC is `"A8FAE0010203"` (no
ARP entry) is stored as `"a8fae0010203"` — lowercased but not
colon-separated zero-padded octets. -/
theorem mac_C5_counterexample :
    ((probeHost (fun _ => none) (js "1.2.3.4") none
        (some { result := some { mac := some (js "A8FAE0010203") } }) none 0).map
      (fun d => d.mac)) = some (some (js "a8fae0010203")) ∧
    specNormalizedMac (js "a8fae0010203") = false := by
  constructor
  · decide
  · decide

/-- Witness for C5 (amended): the probe-reply path at a concrete reply MAC,
the system-config path at a concrete sysconfig MAC when the probe reply has
none, and the ARP normalization at a concrete raw Windows ARP value. -/
theorem mac_C5_witness :
    ((probeHost (fun _ => none) (js "1.2.3.4") none
        (some { method := none, env := none,
                result := some { mac := some (js "A8FAE0010203") }, error := none })
        none 0).map (fun d => d.mac)) = some (some (jsToLower (js "A8FAE0010203"))) ∧
    ((probeHost (fun _ => none) (js "1.2.3.4") none
        (some { method := none, env := none,
                result := some ({} : WizResult), error := none })
        (some { method := none, env := none,
                result := some { mac := some (js "A8FAE0010203") }, error := none })
        0).map (fun d => d.mac)) = some (some (jsToLower (js "A8FAE0010203"))) ∧
    ((jsSplit ':' (arpNormalizeMac true (js "A8-FA-E0-1-2-3"))).all
      (fun p => decide (2 ≤ p.length))) = true :=
  ⟨mac_C5_amended.2.1 (fun _ => none) (js "1.2.3.4") none 0 none none none
      { mac := some (js "A8FAE0010203") } (js "A8FAE0010203") rfl (by decide),
   mac_C5_amended.2.2 (fun _ => none) (js "1.2.3.4") 0 none none none none none none
      {} { mac := some (js "A8FAE0010203") } (js "A8FAE0010203") rfl rfl (by decide),
   (mac_C5_amended.1 true (js "A8-FA-E0-1-2-3")).1⟩

/-- C4 (amended): when a scan fails during setup (invalid CIDR or oversized
range), the error is surfaced to the caller and no progress snapshot is
emitted before or during the failure — but the `finally` block still emits
one completion snapshot (`scanning = false`, `progress = 100`) when a
progress callback is registered.  A scan rejected because another is already
running (checked before the `try`) emits nothing. -/
theorem scan_C4_amended (env : ScanEnv) (st : ScannerState) (options : ScanOpts)
    (e : JSStr) (hidle : st.scanInProgress = false)
    (hfail : enumerateHosts (jsOrStrOpt options.subnet env.autoSubnet) = .error e) :
    (scan env st options).result = .error e ∧
    (scan env st options).events =
      (if st.hasCallback then
        [{ scanning := false, progress := 100, currentHost := none,
           devicesFound := st.devices.length, hostsScanned := 0, totalHosts := 0 }]
      else []) := by
  cases hp : parseCIDR (jsOrStrOpt options.subnet env.autoSubnet) with
  | error e1 =>
    have he1 : e1 = e := by
      unfold enumerateHosts at hfail
      rw [hp] at hfail
      exact Except.error.inj hfail
    subst he1
    simp only [scan, hidle, Bool.false_eq_true, if_false, hp]
    exact ⟨trivial, trivial⟩
  | ok info =>
    simp only [scan, hidle, Bool.false_eq_true, if_false, hp, hfail]
    exact ⟨trivial, trivial⟩

/-- Witness for C4 (amended): a concrete oversized-range scan with a
registered callback surfaces the size-limit error and emits exactly the
completion snapshot. -/
theorem scan_C4_witness :
    (scan { probeResp := fun _ => none, sysResp := fun _ => none,
            ouiLookup := fun _ => none, arpTable := [],
            autoSubnet := js "192.168.1.0/24", now := 0 }
        { scanInProgress := false, devices := [], hasCallback := true }
        { subnet := some (js "10.0.0.0/15") }).result =
      .error (js "CIDR range too large (max /16)") ∧
    (scan { probeResp := fun _ => none, sysResp := fun _ => none,
            ouiLookup := fun _ => none, arpTable := [],
            autoSubnet := js "192.168.1.0/24", now := 0 }
        { scanInProgress := false, devices := [], hasCallback := true }
        { subnet := some (js "10.0.0.0/15") }).events =
      (if ({ scanInProgress := false, devices := [], hasCallback := true }
            : ScannerState).hasCallback then
        [{ scanning := false, progress := 100, currentHost := none,
           devicesFound := ([] : List (JSStr × WizDevice)).length,
           hostsScanned := 0, totalHosts := 0 }]
      else []) :=
  scan_C4_amended
    { probeResp := fun _ => none, sysResp := fun _ => none,
      ouiLookup := fun _ => none, arpTable := [],
      autoSubnet := js "192.168.1.0/24", now := 0 }
    { scanInProgress := false, devices := [], hasCallback := true }
    { subnet := some (js "10.0.0.0/15") }
    (js "CIDR range too large (max /16)") rfl (by decide)

/-- Counterexample for C4: a scan with a registered progress callback that
fails on an invalid CIDR still invokes the callback once (from the `finally`
block), so the emitted-events list is not empty. -/
theorem scan_C4_counterexample :
    (scan { probeResp := fun _ => none, sysResp := fun _ => none,
            ouiLookup := fun _ => none, arpTable := [],
            autoSubnet := js "192.168.1.0/24", now := 0 }
        { scanInProgress := false, devices := [], hasCallback := true }
        { subnet := some (js "10.0.0.0/33") }).result =
      .error (js "Invalid CIDR prefix") ∧
    (scan { probeResp := fun _ => none, sysResp := fun _ => none,
            ouiLookup := fun _ => none, arpTable := [],
            autoSubnet := js "192.168.1.0/24", now := 0 }
        { scanInProgress := false, devices := [], hasCallback := true }
        { subnet := some (js "10.0.0.0/33") }).events ≠ [] := by
  constructor
  · decide
  · decide

/-- Witness for C2 (amended): a candidate with strictly more truthy features
than a concrete sparse existing record is accepted for replacement. -/
theorem shouldUpdate_C2_witness :
    shouldUpdateDevice
      { id := js "y", ip := js "1.2.3.5", confidence := ConfidenceLevel.high,
        lastSeen := 0, state := some { power := true } }
      { id := js "y", ip := js "1.2.3.5", mac := some (js "aa:bb:cc:dd:ee:ff"),
        confidence := ConfidenceLevel.high, lastSeen := 0,
        state := some { power := true, brightness := some 80 } } = true :=
  (shouldUpdate_C2_amended
    { id := js "y", ip := js "1.2.3.5", confidence := ConfidenceLevel.high,
      lastSeen := 0, state := some { power := true } }
    { id := js "y", ip := js "1.2.3.5", mac := some (js "aa:bb:cc:dd:ee:ff"),
      confidence := ConfidenceLevel.high, lastSeen := 0,
      state := some { power := true, brightness := some 80 } }).mpr
    (Or.inl (by decide))

/-- Witness for C6 (amended): a reply carrying a `result` field and no
`error` field makes `setPower` return `true`. -/
theorem setters_C6_witness :
    setPower (fun _ => Except.ok ({ result := some {} } : WizResponse)) true = true :=
  (setters_C6_amended (Except.ok ({ result := some {} } : WizResponse))
      true 0 0 0 0 0 0 0 {}).1.mpr
    ⟨{ result := some {} }, rfl, rfl, rfl⟩
